import Mathlib

/-!
Verification of the manaflow sandbox provisioning engine against its
natural-language specification.

The definitions below are a shallow embedding of the Python sources:

* `scripts/snapshot-pvelxc.py` — `PveLxcClient.http_exec`,
  `PveLxcClient.exec_in_container`, the manifest helpers
  (`_load_manifest`, `_write_manifest`, `_add_version_to_preset`,
  `_update_manifest_with_template`), `run_pve_task_graph`,
  `provision_and_create_template` and `provision_and_snapshot`.
* `scripts/snapshot/engine.py` — `TaskRegistry`, `run_task_graph`,
  `format_dependency_graph`.

Machine integers are embedded as `Nat`/`Int` (no Python arithmetic in the
modelled fragments overflows), fallible code returns `Except`/`Option`,
and external effects (the HTTP response, the filesystem, clock and
uuid generation) are passed in as explicit values.
-/

/-! ## Exec transport: `PveLxcClient.http_exec` and `exec_in_container`

`http_exec` POSTs a command to the in-container exec daemon and parses a
newline-delimited JSON event stream.  We embed one parsed line of that
stream as a `StreamEvent`; the constructors mirror the branches of the
per-line dispatch in `http_exec` (blank lines are skipped by the source
and therefore simply never yield an event).  `exit` and `error` carry the
value after the `.get(...)` defaulting performed at the parse site
(`code` defaults to 0, `message` defaults to "Unknown error"). -/

structure ExecResult where
  returncode : Int
  stdout : String
  stderr : String
deriving Repr, DecidableEq

inductive StreamEvent where
  | stdout (data : String)
  | stderr (data : String)
  | exit (code : Int)
  | error (message : String)
  | unknownType
  | notDict (line : String)
  | badJson (line : String)
deriving Repr, DecidableEq

/-- Accumulator state of the line-processing loop in `http_exec`:
`stdout_lines`, `stderr_lines` and the mutable `exit_code`. -/
structure HttpExecState where
  stdout_lines : List String
  stderr_lines : List String
  exit_code : Option Int
deriving Repr, DecidableEq

def initHttpExecState : HttpExecState := ⟨[], [], none⟩

/-- One iteration of the `for line in response` loop of `http_exec`. -/
def processLine (s : HttpExecState) (e : StreamEvent) : HttpExecState :=
  match e with
  | .stdout d => { s with stdout_lines := s.stdout_lines ++ [d] }
  | .stderr d => { s with stderr_lines := s.stderr_lines ++ [d] }
  | .exit c => { s with exit_code := some c }
  | .error m => { s with stderr_lines := s.stderr_lines ++ [m], exit_code := some 1 }
  | .unknownType => s
  | .notDict line =>
      { s with stderr_lines := s.stderr_lines ++ ["Invalid JSON event (not a dict): " ++ line] }
  | .badJson line => { s with stderr_lines := s.stderr_lines ++ [line] }

/-- How the HTTP request/stream of one `http_exec` call ended, mirroring the
`try`/`except` arms of the source.  The event-carrying constructors record
the lines already processed before the stream ended or the exception hit. -/
inductive HttpExecOutcome where
  | streamed (events : List StreamEvent)
  | httpError (code : Nat) (reason : String) (body : String)
  | urlError (msg : String)
  | timedOut (events : List StreamEvent) (timeoutShown : String)
  | connectionDropped (events : List StreamEvent) (errShown : String)
  | osError (msg : String)
deriving Repr, DecidableEq

/-- Tail of `http_exec` after the `try` block: default the exit code to 0,
build the `CompletedProcess`, and raise when `check` is set and the exit
code is non-zero. -/
def finishHttpExec (command : String) (check : Bool) (s : HttpExecState) :
    Except String (Option ExecResult) :=
  let code := s.exit_code.getD 0
  let r : ExecResult := ⟨code, String.join s.stdout_lines, String.join s.stderr_lines⟩
  if check && (r.returncode != 0) then
    .error ("HTTP exec failed (exit " ++ toString r.returncode ++ "):\nCommand: "
      ++ command ++ "\nstdout: " ++ r.stdout ++ "\nstderr: " ++ r.stderr)
  else
    .ok (some r)

/-- `PveLxcClient.http_exec` (scripts/snapshot-pvelxc.py, lines 833-944).
`.ok none` is the Python `return None` (transport unavailable, SSH fallback
eligible); `.error` is a raised `RuntimeError`. -/
def http_exec (command : String) (check : Bool) (outcome : HttpExecOutcome) :
    Except String (Option ExecResult) :=
  match outcome with
  | .streamed evs => finishHttpExec command check (evs.foldl processLine initHttpExecState)
  | .httpError code reason body =>
      if code == 502 || code == 503 || code == 504 || code == 524 then
        .ok none
      else
        finishHttpExec command check
          { stdout_lines := []
            stderr_lines := ["HTTP exec error " ++ toString code ++ ": " ++ reason ++ "\n" ++ body]
            exit_code := some 1 }
  | .urlError _ => .ok none
  | .timedOut evs shown =>
      let s := evs.foldl processLine initHttpExecState
      finishHttpExec command check
        { s with stderr_lines := s.stderr_lines ++ ["HTTP exec timed out after " ++ shown ++ "s"]
                 exit_code := some 124 }
  | .connectionDropped evs emsg =>
      let s := evs.foldl processLine initHttpExecState
      finishHttpExec command check
        { s with stderr_lines := s.stderr_lines ++ ["HTTP exec connection error: " ++ emsg]
                 exit_code := some 125 }
  | .osError _ => .ok none

/-- Result of one `exec_in_container` dispatch: an HTTP result returned
as-is, a raised `RuntimeError`, or the fallback call to SSH+`pct exec`. -/
inductive DispatchOutcome where
  | http (r : ExecResult)
  | raised (msg : String)
  | sshPctExec
deriving Repr, DecidableEq

/-- Error raised by `exec_in_container` when HTTP exec is unavailable and
`PVE_SSH_HOST` was not explicitly provided. -/
def noSshFallbackMsg (vmid : Nat) : String :=
  "HTTP exec (cmux-execd) not available for container " ++ toString vmid
    ++ " and SSH fallback not configured.\nOptions:\n  1. Set PVE_SSH_HOST=root@<pve-host-ip> "
    ++ "to enable SSH fallback\n  2. Ensure cmux-execd is running in the container for HTTP exec"

/-- `PveLxcClient.exec_in_container` (scripts/snapshot-pvelxc.py, lines
959-997): try HTTP exec first (with `check=False`), return a non-missing
HTTP result (raising if `check` and non-zero), otherwise fall back to
SSH+`pct exec` only when the SSH host was explicitly configured. -/
def exec_in_container (vmid : Nat) (command : String) (sshHostExplicit : Bool)
    (check : Bool) (outcome : HttpExecOutcome) : DispatchOutcome :=
  match http_exec command false outcome with
  | .error e => .raised e
  | .ok (some r) =>
      if check && (r.returncode != 0) then
        .raised ("Command failed (exit " ++ toString r.returncode ++ "):\nCommand: "
          ++ command ++ "\nstdout: " ++ r.stdout ++ "\nstderr: " ++ r.stderr)
      else
        .http r
  | .ok none =>
      if !sshHostExplicit then .raised (noSshFallbackMsg vmid)
      else .sshPctExec

/-- Stream events that assign `exit_code` in the processing loop: the
`exit` event and the `error` event (which sets `exit_code = 1`). -/
def isTerminalEvent : StreamEvent → Bool
  | .exit _ => true
  | .error _ => true
  | _ => false

/-- The HTTP-level failure classes that `http_exec` answers with `None`
(transport unavailable, eligible for SSH fallback): gateway/Cloudflare
statuses 502/503/504/524, `URLError` (connection refused, DNS failure)
and other `OSError`s (network unreachable). -/
def isTransportUnavailable : HttpExecOutcome → Bool
  | .httpError code _ _ => code == 502 || code == 503 || code == 504 || code == 524
  | .urlError _ => true
  | .osError _ => true
  | _ => false

/-- Joining a list of strings with one string appended at the end. -/
theorem string_join_concat (l : List String) (x : String) :
    String.join (l ++ [x]) = String.join l ++ x := by
  simp [String.join, List.foldl_append]

/-- Folding stream events that never assign an exit code leaves
`exit_code` untouched. -/
theorem foldl_processLine_exit_code (evs : List StreamEvent)
    (h : evs.all (fun e => !isTerminalEvent e) = true) (s : HttpExecState) :
    (evs.foldl processLine s).exit_code = s.exit_code := by
  induction evs generalizing s with
  | nil => rfl
  | cons e rest ih =>
      simp only [List.all_cons, Bool.and_eq_true] at h
      rw [List.foldl_cons, ih h.2]
      cases e <;> simp_all [processLine, isTerminalEvent]

/-- C1: when the HTTP exec event stream terminates without any `exit`
event (and without an `error` event, which would also assign an exit
code), `http_exec` returns a result whose exit code is 0: the command is
assumed to have succeeded. -/
theorem http_exec_stream_without_exit_is_success
    (command : String) (check : Bool) (evs : List StreamEvent)
    (h : evs.all (fun e => !isTerminalEvent e) = true) :
    ∃ r : ExecResult,
      http_exec command check (.streamed evs) = .ok (some r) ∧ r.returncode = 0 := by
  have hexit : (evs.foldl processLine initHttpExecState).exit_code = none :=
    foldl_processLine_exit_code evs h initHttpExecState
  refine ⟨⟨0, String.join (evs.foldl processLine initHttpExecState).stdout_lines,
    String.join (evs.foldl processLine initHttpExecState).stderr_lines⟩, ?_, rfl⟩
  simp [http_exec, finishHttpExec, hexit]

/-- Witness for C1: a stream that only carried stdout data yields exit 0. -/
theorem http_exec_stream_without_exit_is_success_witness :
    ∃ r : ExecResult,
      http_exec "echo ready" true (.streamed [.stdout "ready\n"]) = .ok (some r) ∧
        r.returncode = 0 :=
  http_exec_stream_without_exit_is_success "echo ready" true [.stdout "ready\n"] (by decide)

/-- C3: a transport-unavailable HTTP attempt (status 502/503/504/524,
refused or unresolvable connection) makes `http_exec` return no result,
and the dispatcher then runs the command over SSH+`pct exec` exactly when
an SSH host was explicitly configured, raising the no-transport error
when it was not. -/
theorem exec_in_container_transport_unavailable
    (vmid : Nat) (command : String) (check checkh : Bool) (outcome : HttpExecOutcome)
    (h : isTransportUnavailable outcome = true) :
    http_exec command checkh outcome = .ok none ∧
      exec_in_container vmid command true check outcome = .sshPctExec ∧
      exec_in_container vmid command false check outcome = .raised (noSshFallbackMsg vmid) := by
  have hnone : ∀ c : Bool, http_exec command c outcome = .ok none := by
    intro c
    cases outcome <;> simp_all [http_exec, isTransportUnavailable]
  refine ⟨hnone checkh, ?_, ?_⟩ <;> simp [exec_in_container, hnone false]

/-- Witness for C3: an HTTP 502 falls back to SSH when configured and
raises when not. -/
theorem exec_in_container_transport_unavailable_witness :
    http_exec "uname -a" true (.httpError 502 "Bad Gateway" "") = .ok none ∧
      exec_in_container 9001 "uname -a" true true (.httpError 502 "Bad Gateway" "")
        = .sshPctExec ∧
      exec_in_container 9001 "uname -a" false true (.httpError 502 "Bad Gateway" "")
        = .raised (noSshFallbackMsg 9001) :=
  exec_in_container_transport_unavailable 9001 "uname -a" true true
    (.httpError 502 "Bad Gateway" "") (by decide)

/-- C4: a mid-stream connection drop (connection reset, broken pipe,
incomplete read) synthesizes exit code 125 and appends the stderr message
"HTTP exec connection error: ..." (so the result stderr ends with that
message, and equals it when no stderr output preceded the drop), and the
dispatcher never falls back to SSH for that command: with `check=False`
the non-missing HTTP result is returned as-is. -/
theorem exec_in_container_mid_stream_drop
    (vmid : Nat) (command emsg : String) (evs : List StreamEvent)
    (ssh check : Bool) :
    ∃ r : ExecResult,
      http_exec command false (.connectionDropped evs emsg) = .ok (some r) ∧
        r.returncode = 125 ∧
        (∃ s, r.stderr = s ++ ("HTTP exec connection error: " ++ emsg)) ∧
        (evs = [] → r.stderr = "HTTP exec connection error: " ++ emsg) ∧
        exec_in_container vmid command ssh check (.connectionDropped evs emsg)
          ≠ .sshPctExec ∧
        (check = false →
          exec_in_container vmid command ssh check (.connectionDropped evs emsg) = .http r) := by
  set st := evs.foldl processLine initHttpExecState with hst
  refine ⟨⟨125, String.join st.stdout_lines,
    String.join (st.stderr_lines ++ ["HTTP exec connection error: " ++ emsg])⟩,
    ?_, rfl, ?_, ?_, ?_, ?_⟩
  · simp [http_exec, finishHttpExec, ← hst]
  · exact ⟨String.join st.stderr_lines, by rw [string_join_concat]⟩
  · intro hnil
    subst hnil
    simp [hst, initHttpExecState, String.join]
  · simp only [exec_in_container, http_exec, finishHttpExec, ← hst]
    cases check <;> simp
  · intro hc
    subst hc
    simp [exec_in_container, http_exec, finishHttpExec, ← hst]

/-- Witness for C4: a bare connection drop yields exit 125, the marker
stderr message, and no SSH fallback. -/
theorem exec_in_container_mid_stream_drop_witness :
    ∃ r : ExecResult,
      http_exec "make install" false (.connectionDropped [] "IncompleteRead(0 bytes read)")
          = .ok (some r) ∧
        r.returncode = 125 ∧
        (∃ s, r.stderr = s ++ ("HTTP exec connection error: " ++ "IncompleteRead(0 bytes read)")) ∧
        ([] = ([] : List StreamEvent) →
          r.stderr = "HTTP exec connection error: " ++ "IncompleteRead(0 bytes read)") ∧
        exec_in_container 9001 "make install" true false
            (.connectionDropped [] "IncompleteRead(0 bytes read)") ≠ .sshPctExec ∧
        (false = false →
          exec_in_container 9001 "make install" true false
              (.connectionDropped [] "IncompleteRead(0 bytes read)") = .http r) :=
  exec_in_container_mid_stream_drop 9001 "make install" "IncompleteRead(0 bytes read)" [] true false

/-! ## Task engine: `scripts/snapshot/engine.py`

`TaskRegistry` is an insertion-ordered dict from unique task name to
`TaskDefinition`; we embed it as the ordered list of its values (the
`func` field is an opaque async callable and plays no role in scheduling,
so it is omitted).  `run_task_graph` (and its line-for-line clone
`run_pve_task_graph` in scripts/snapshot-pvelxc.py, lines 3728-3760)
repeatedly filters the ready tasks, runs them as one concurrent layer,
then moves them from `remaining` to `completed`.  We embed the run as the
list of layers in scheduling order. -/

structure TaskDefinition where
  name : String
  dependencies : List String
deriving Repr, DecidableEq

/-- The ready filter of one scheduling round: all dependencies already
completed. -/
def isReady (completed : List String) (t : TaskDefinition) : Bool :=
  t.dependencies.all (fun d => completed.contains d)

/-- The `while remaining:` loop of `run_task_graph`, fueled by the number
of remaining tasks (each successful round removes at least one task, so
the fuel is never exhausted on a successful run). -/
def scheduleLayers : Nat → List TaskDefinition → List String →
    Except String (List (List TaskDefinition))
  | _, [], _ => .ok []
  | 0, _ :: _, _ => .error "fuel exhausted"
  | fuel + 1, t :: ts, completed =>
      let remaining := t :: ts
      let ready := remaining.filter (isReady completed)
      if ready.isEmpty then
        .error ("Dependency cycle detected: " ++ String.intercalate ", " (remaining.map (·.name)))
      else
        match scheduleLayers fuel (remaining.filter (fun u => !isReady completed u))
          (completed ++ ready.map (·.name)) with
        | .ok layers => .ok (ready :: layers)
        | .error e => .error e

/-- `run_task_graph(registry, ctx)` reduced to its scheduling content:
the sequence of concurrently-run task layers, or the dependency-cycle
error. -/
def run_task_graph (registry : List TaskDefinition) :
    Except String (List (List TaskDefinition)) :=
  scheduleLayers registry.length registry []

/-- Direct and transitive dependency between task names in a registry:
`TransDep registry a d` holds when the task named `a` transitively
depends on the name `d`. -/
inductive TransDep (registry : List TaskDefinition) : String → String → Prop where
  | direct : ∀ t ∈ registry, ∀ d ∈ t.dependencies, TransDep registry t.name d
  | tail : ∀ t ∈ registry, ∀ c ∈ t.dependencies, ∀ {d}, TransDep registry c d →
      TransDep registry t.name d

/-- Every task of every layer starts only after its direct dependencies
are in the completed set accumulated from the earlier layers. -/
def DepsRespect : List String → List (List TaskDefinition) → Prop
  | _, [] => True
  | completed, layer :: rest =>
      (∀ t ∈ layer, ∀ d ∈ t.dependencies, d ∈ completed) ∧
      DepsRespect (completed ++ layer.map (·.name)) rest

/-- Every task of every layer starts only after all its transitive
dependencies are in the completed set accumulated from the earlier
layers. -/
def TransRespect (registry : List TaskDefinition) : List String → List (List TaskDefinition) → Prop
  | _, [] => True
  | done, layer :: rest =>
      (∀ t ∈ layer, ∀ d, TransDep registry t.name d → d ∈ done) ∧
      TransRespect registry (done ++ layer.map (·.name)) rest

/-- A nonempty list has an element minimizing any `Nat`-valued measure. -/
theorem exists_min_by {α : Type} (f : α → Nat) (l : List α) (hl : l ≠ []) :
    ∃ m ∈ l, ∀ x ∈ l, f m ≤ f x := by
  induction l with
  | nil => exact absurd rfl hl
  | cons a as ih =>
      cases as with
      | nil => exact ⟨a, by simp⟩
      | cons b bs =>
          obtain ⟨m, hm, hmin⟩ := ih (by simp)
          by_cases hle : f a ≤ f m
          · refine ⟨a, by simp, ?_⟩
            intro x hx
            rcases List.mem_cons.mp hx with h | h
            · exact h ▸ le_rfl
            · exact hle.trans (hmin x h)
          · refine ⟨m, List.mem_cons_of_mem a hm, ?_⟩
            intro x hx
            rcases List.mem_cons.mp hx with h | h
            · exact h ▸ (not_le.mp hle).le
            · exact hmin x h

/-- A successful scheduling run respects direct dependencies: every task
of every layer has all its dependencies in the completed set of the
earlier layers. -/
theorem scheduleLayers_depsRespect (fuel : Nat) :
    ∀ remaining completed layers,
      scheduleLayers fuel remaining completed = .ok layers →
      DepsRespect completed layers := by
  induction fuel with
  | zero =>
      intro remaining completed layers h
      cases remaining with
      | nil =>
          simp only [scheduleLayers] at h
          cases h
          exact trivial
      | cons t ts => simp [scheduleLayers] at h
  | succ fuel ih =>
      intro remaining completed layers h
      cases remaining with
      | nil =>
          simp only [scheduleLayers] at h
          cases h
          exact trivial
      | cons t ts =>
          simp only [scheduleLayers] at h
          split at h
          · cases h
          · split at h
            · rename_i layers0 heq
              cases h
              refine ⟨?_, ih _ _ _ heq⟩
              intro u hu d hd
              have hr : isReady completed u = true := (List.mem_filter.mp hu).2
              simp only [isReady, List.all_eq_true] at hr
              simpa using hr d hd
            · cases h

/-- The concatenation of the layers of a successful scheduling run is a
permutation of the remaining tasks: each task runs exactly once. -/
theorem scheduleLayers_flatten_perm (fuel : Nat) :
    ∀ remaining completed layers,
      scheduleLayers fuel remaining completed = .ok layers →
      layers.flatten.Perm remaining := by
  induction fuel with
  | zero =>
      intro remaining completed layers h
      cases remaining with
      | nil =>
          simp only [scheduleLayers] at h
          cases h
          exact List.Perm.refl _
      | cons t ts => simp [scheduleLayers] at h
  | succ fuel ih =>
      intro remaining completed layers h
      cases remaining with
      | nil =>
          simp only [scheduleLayers] at h
          cases h
          exact List.Perm.refl _
      | cons t ts =>
          simp only [scheduleLayers] at h
          split at h
          · cases h
          · split at h
            · rename_i layers0 heq
              cases h
              have hrest := ih _ _ _ heq
              simp only [List.flatten_cons]
              exact (hrest.append_left _).trans (List.filter_append_perm _ _)
            · cases h

/-- Termination of the scheduling loop on acyclic inputs: when every
dependency of a remaining task is already completed or names another
remaining task, and a rank function witnesses acyclicity, the loop never
hits the cycle error (nor runs out of fuel). -/
theorem scheduleLayers_ok (rank : String → Nat) (fuel : Nat) :
    ∀ remaining completed,
      remaining.length ≤ fuel →
      (∀ t ∈ remaining, ∀ d ∈ t.dependencies, rank d < rank t.name) →
      (∀ t ∈ remaining, ∀ d ∈ t.dependencies,
        d ∈ completed ∨ ∃ u ∈ remaining, u.name = d) →
      ∃ layers, scheduleLayers fuel remaining completed = .ok layers := by
  induction fuel with
  | zero =>
      intro remaining completed hlen _ _
      cases remaining with
      | nil => exact ⟨[], rfl⟩
      | cons t ts => simp at hlen
  | succ fuel ih =>
      intro remaining completed hlen hrank hdep
      cases remaining with
      | nil => exact ⟨[], rfl⟩
      | cons t ts =>
          obtain ⟨m, hm, hmin⟩ := exists_min_by (fun u => rank u.name) (t :: ts) (by simp)
          have hmready : isReady completed m = true := by
            simp only [isReady, List.all_eq_true]
            intro d hd
            rcases hdep m hm d hd with hc | ⟨u, hu, huname⟩
            · simpa using hc
            · exfalso
              have h1 : rank d < rank m.name := hrank m hm d hd
              have h2 : rank m.name ≤ rank u.name := hmin u hu
              rw [huname] at h2
              exact absurd (h2.trans_lt h1) (lt_irrefl _)
          have hmem : m ∈ (t :: ts).filter (isReady completed) :=
            List.mem_filter.mpr ⟨hm, hmready⟩
          have hne : ¬((t :: ts).filter (isReady completed)).isEmpty = true := by
            intro habs
            rw [List.isEmpty_iff] at habs
            rw [habs] at hmem
            exact absurd hmem (List.not_mem_nil m)
          have hpart := (List.filter_append_perm (isReady completed) (t :: ts)).length_eq
          rw [List.length_append] at hpart
          have hpos : 0 < ((t :: ts).filter (isReady completed)).length :=
            List.length_pos.mpr (fun habs => hne (by rw [habs]; rfl))
          have hlenrest : ((t :: ts).filter (fun u => !isReady completed u)).length ≤ fuel := by
            omega
          have hrankrest : ∀ u ∈ (t :: ts).filter (fun u => !isReady completed u),
              ∀ d ∈ u.dependencies, rank d < rank u.name :=
            fun u hu => hrank u (List.mem_of_mem_filter hu)
          have hdeprest : ∀ u ∈ (t :: ts).filter (fun u => !isReady completed u),
              ∀ d ∈ u.dependencies,
              d ∈ completed ++ ((t :: ts).filter (isReady completed)).map (·.name) ∨
              ∃ v ∈ (t :: ts).filter (fun u => !isReady completed u), v.name = d := by
            intro u hu d hd
            rcases hdep u (List.mem_of_mem_filter hu) d hd with hc | ⟨v, hv, hvname⟩
            · exact Or.inl (List.mem_append_left _ hc)
            · by_cases hvr : isReady completed v = true
              · refine Or.inl (List.mem_append_right _ ?_)
                exact List.mem_map.mpr ⟨v, List.mem_filter.mpr ⟨hv, hvr⟩, hvname⟩
              · refine Or.inr ⟨v, List.mem_filter.mpr ⟨hv, ?_⟩, hvname⟩
                simp [hvr]
          obtain ⟨layers0, h0⟩ := ih _ _ hlenrest hrankrest hdeprest
          refine ⟨(t :: ts).filter (isReady completed) :: layers0, ?_⟩
          simp only [scheduleLayers]
          rw [if_neg hne, h0]

/-- In a registry with unique task names, a transitive dependency of a
task whose direct dependencies all lie in a transitively-closed set
`done` lies in `done` as well. -/
theorem transDep_mem_of_closed (registry : List TaskDefinition)
    (hnodup : (registry.map (·.name)).Nodup) (done : List String)
    (hClosed : ∀ nm ∈ done, ∀ d, TransDep registry nm d → d ∈ done) :
    ∀ {a d : String}, TransDep registry a d →
      ∀ t ∈ registry, t.name = a → (∀ e ∈ t.dependencies, e ∈ done) → d ∈ done := by
  intro a d hTd
  induction hTd with
  | direct u hu e he =>
      intro t ht htn hdeps
      have : t = u := List.inj_on_of_nodup_map hnodup ht hu htn
      exact hdeps e (this ▸ he)
  | tail u hu c hc hcd _ =>
      intro t ht htn hdeps
      have : t = u := List.inj_on_of_nodup_map hnodup ht hu htn
      exact hClosed c (hdeps c (this ▸ hc)) _ hcd

/-- Layer-wise direct-dependency respect plus registry membership of all
scheduled tasks yields transitive-dependency respect. -/
theorem transRespect_of_depsRespect (registry : List TaskDefinition)
    (hnodup : (registry.map (·.name)).Nodup) :
    ∀ layers done,
      DepsRespect done layers →
      (∀ nm ∈ done, ∀ d, TransDep registry nm d → d ∈ done) →
      (∀ t ∈ layers.flatten, t ∈ registry) →
      TransRespect registry done layers := by
  intro layers
  induction layers with
  | nil => intro done _ _ _; exact trivial
  | cons layer rest ih =>
      intro done hDeps hClosed hMem
      obtain ⟨h1, h2⟩ := hDeps
      have hMemLayer : ∀ t ∈ layer, t ∈ registry := by
        intro t ht
        exact hMem t (by simp only [List.flatten_cons]; exact List.mem_append_left _ ht)
      have hLayer : ∀ t ∈ layer, ∀ d, TransDep registry t.name d → d ∈ done := by
        intro t ht d hTd
        exact transDep_mem_of_closed registry hnodup done hClosed hTd t
          (hMemLayer t ht) rfl (h1 t ht)
      refine ⟨hLayer, ?_⟩
      apply ih
      · exact h2
      · intro nm hnm d hTd
        rcases List.mem_append.mp hnm with hnd | hnl
        · exact List.mem_append_left _ (hClosed nm hnd d hTd)
        · obtain ⟨t, ht, htn⟩ := List.mem_map.mp hnl
          exact List.mem_append_left _ (hLayer t ht d (htn ▸ hTd))
      · intro t ht
        exact hMem t (by simp only [List.flatten_cons]; exact List.mem_append_right _ ht)

/-- C2: for every registry whose dependency relation is a DAG (witnessed
by a rank function that strictly drops from a task name to each of its
dependencies, the standard finite characterization of acyclicity), whose
dependency names are all registered, and whose task names are unique (as
the source registry dict guarantees), running the task graph succeeds; it
executes each task exactly once (the concatenation of the scheduled
layers is a permutation of the registry), and a task is only started
after every one of its transitive dependencies has completed (each task
of each layer has all its transitive dependencies inside the completed
set accumulated from the strictly earlier layers).  In particular the
empty registry completes with no task executions and no error. -/
theorem run_task_graph_correct (registry : List TaskDefinition)
    (rank : String → Nat)
    (hnodup : (registry.map (·.name)).Nodup)
    (hrank : ∀ t ∈ registry, ∀ d ∈ t.dependencies, rank d < rank t.name)
    (hreg : ∀ t ∈ registry, ∀ d ∈ t.dependencies, ∃ u ∈ registry, u.name = d) :
    (registry = [] → run_task_graph registry = .ok []) ∧
    ∃ layers, run_task_graph registry = .ok layers ∧
      layers.flatten.Perm registry ∧
      TransRespect registry [] layers := by
  constructor
  · rintro rfl
    rfl
  · obtain ⟨layers, hok⟩ := scheduleLayers_ok rank registry.length registry [] le_rfl hrank
      (fun t ht d hd => Or.inr (hreg t ht d hd))
    have hperm := scheduleLayers_flatten_perm registry.length registry [] layers hok
    refine ⟨layers, hok, hperm, ?_⟩
    apply transRespect_of_depsRespect registry hnodup layers []
    · exact scheduleLayers_depsRespect registry.length registry [] layers hok
    · intro nm hnm
      exact absurd hnm (List.not_mem_nil nm)
    · intro t ht
      exact hperm.subset ht

/-- The diamond registry used as a concrete witness for C2. -/
def diamondRegistry : List TaskDefinition :=
  [⟨"A", []⟩, ⟨"B", ["A"]⟩, ⟨"C", ["A"]⟩, ⟨"D", ["B", "C"]⟩]

/-- Rank function witnessing that the diamond registry is a DAG. -/
def diamondRank (s : String) : Nat :=
  if s == "A" then 0 else if s == "D" then 2 else 1

/-- Witness for C2: the diamond registry runs to completion, each task
exactly once, transitive dependencies first. -/
theorem run_task_graph_correct_witness :
    (diamondRegistry = [] → run_task_graph diamondRegistry = .ok []) ∧
    ∃ layers, run_task_graph diamondRegistry = .ok layers ∧
      layers.flatten.Perm diamondRegistry ∧
      TransRespect diamondRegistry [] layers :=
  run_task_graph_correct diamondRegistry diamondRank (by decide)
    (by decide) (by decide)

/-! ## Dependency-graph pretty printer: `format_dependency_graph`

The source sorts child lists, roots and orphans with the stable Python
`sort`/`sorted`; we embed that with a stable insertion sort (equal keys
keep their original relative order, exactly as in CPython). -/

def insertSorted {α : Type} (le : α → α → Bool) (a : α) : List α → List α
  | [] => [a]
  | b :: bs => if le b a then b :: insertSorted le a bs else a :: b :: bs

/-- Stable sort (insertion sort), modelling Python `sorted`/`list.sort`. -/
def stableSortBy {α : Type} (le : α → α → Bool) (l : List α) : List α :=
  l.foldl (fun acc x => insertSorted le x acc) []

def sortStrings (l : List String) : List String :=
  stableSortBy (fun a b => decide (a ≤ b)) l

/-- The sorted child list `children.get(n, [])` of the printer: the names
of the tasks that list `n` among their dependencies, sorted.  (The
`children` dict maps every task name, and every name appearing as a
dependency, to exactly this list; every other name defaults to `[]`,
which is also what this function returns for it.) -/
def childrenOf (tasks : List TaskDefinition) (n : String) : List String :=
  sortStrings ((tasks.filter (fun t => t.dependencies.contains n)).map (·.name))

/-- The sorted root names (tasks with no dependencies). -/
def rootsOf (tasks : List TaskDefinition) : List String :=
  sortStrings ((tasks.filter (fun t => t.dependencies.isEmpty)).map (·.name))

/-- `render_node` of `format_dependency_graph`, returning the lines it
appends.  The recursion is fueled: every recursive call extends `path`
with a task name not yet in it, so depth `tasks.length + 1` is never
exhausted on the concrete registries considered here. -/
def renderNode (tasks : List TaskDefinition) :
    Nat → String → String → Bool → List String → List String
  | 0, _, _, _, _ => []
  | fuel + 1, node, pre, isLast, path =>
      let connector := if isLast then "└─" else "├─"
      let line := pre ++ connector ++ " " ++ node
      if path.contains node then
        [line, pre ++ "   ↻ cycle"]
      else
        let descendants := childrenOf tasks node
        if descendants.isEmpty then [line]
        else
          let nextPre := if isLast then pre ++ "   " else pre ++ "│  "
          let nextPath := node :: path
          line :: descendants.enum.flatMap (fun q =>
            renderNode tasks fuel q.2 nextPre (q.1 == descendants.length - 1) nextPath)

/-- The list of output lines of `format_dependency_graph`
(scripts/snapshot/engine.py, lines 107-165): a block per sorted root
(blank-line separated), then the orphaned names (tasks that are not
roots and are not a child of any task name). -/
def dependency_graph_lines (tasks : List TaskDefinition) : List String :=
  if tasks.isEmpty then [] else
  let roots := rootsOf tasks
  let rootLines := roots.enum.flatMap (fun p =>
    (if p.1 == 0 then [] else [""]) ++ p.2 ::
      (let ds := childrenOf tasks p.2
       ds.enum.flatMap (fun q =>
         renderNode tasks (tasks.length + 1) q.2 "" (q.1 == ds.length - 1) [p.2])))
  let orphaned := sortStrings ((tasks.filter (fun t =>
      !(roots.contains t.name) &&
      tasks.all (fun other => !((childrenOf tasks other.name).contains t.name)))).map (·.name))
  orphaned.foldl (fun ls o => ls ++ (if ls.isEmpty then [o] else ["", o])) rootLines

/-- `format_dependency_graph(registry)`: the rendered tree as a string. -/
def format_dependency_graph (tasks : List TaskDefinition) : String :=
  String.intercalate "\n" (dependency_graph_lines tasks)

/-- The two-task cyclic registry `A.deps=[B]`, `B.deps=[A]` named by the
spec scenario. -/
def cycleRegistryAB : List TaskDefinition := [⟨"A", ["B"]⟩, ⟨"B", ["A"]⟩]

/-- A registry whose cycle is reachable from a dependency-free root:
`R` has no deps, `A.deps=[R, B]`, `B.deps=[A]`. -/
def rootedCycleRegistry : List TaskDefinition :=
  [⟨"R", []⟩, ⟨"A", ["R", "B"]⟩, ⟨"B", ["A"]⟩]

/-- Counterexample to C9: for the two-task registry with `A.deps=[B]` and
`B.deps=[A]`, the rendered dependency graph is the empty string — both
tasks have dependencies, so there are no roots to render from, and each
is a child of the other, so neither is orphaned — and therefore the
output does not contain the marker `↻ cycle` anywhere. -/
theorem format_dependency_graph_cycleAB_no_marker :
    format_dependency_graph cycleRegistryAB = "" ∧
      ¬ ∃ pre post : String,
        format_dependency_graph cycleRegistryAB = pre ++ "↻ cycle" ++ post := by
  have hempty : format_dependency_graph cycleRegistryAB = "" := by decide
  refine ⟨hempty, ?_⟩
  rintro ⟨pre, post, h⟩
  rw [hempty] at h
  have hlen := congrArg String.length h
  rw [String.length_append, String.length_append] at hlen
  have h7 : ("↻ cycle" : String).length = 7 := by decide
  rw [h7] at hlen
  have h0 : ("" : String).length = 0 := rfl
  rw [h0] at hlen
  omega

/-- C9 amended: the `↻ cycle` marker is emitted at the first re-visited
node only for cycles reachable from a dependency-free root task; a
registry whose cycle has no such root — in particular `A.deps=[B]`,
`B.deps=[A]` — renders as the empty string with no marker.  Concretely,
the rooted registry `R`, `A.deps=[R,B]`, `B.deps=[A]` renders its cycle
with the marker line, while the rootless two-task cycle renders
nothing. -/
theorem format_dependency_graph_cycle_marker :
    format_dependency_graph rootedCycleRegistry
        = "R\n└─ A\n   └─ B\n      └─ A\n         ↻ cycle" ∧
      (∃ pre post : String,
        format_dependency_graph rootedCycleRegistry = pre ++ "↻ cycle" ++ post) ∧
      format_dependency_graph cycleRegistryAB = "" := by
  refine ⟨by decide, ⟨"R\n└─ A\n   └─ B\n      └─ A\n         ", "", by decide⟩, by decide⟩

/-! ## Manifest model: `scripts/snapshot-pvelxc.py`

The manifest JSON document (`pve-lxc-snapshots.json`, schema v2) and the
helpers that load, update and write it.  The structures mirror the
`TypedDict`s `PveTemplateVersionEntry`, `PveTemplatePresetEntry` and
`PveTemplateManifestEntry` of the source (the optional `description`
field plays no role in the modelled helpers and is omitted). -/

structure PveTemplateVersionEntry where
  version : Nat
  snapshotId : String
  templateVmid : Nat
  capturedAt : String
deriving Repr, DecidableEq

structure PveTemplatePresetEntry where
  presetId : String
  label : String
  cpu : String
  memory : String
  disk : String
  versions : List PveTemplateVersionEntry
deriving Repr, DecidableEq

structure PveTemplateManifestEntry where
  schemaVersion : Nat
  updatedAt : String
  baseTemplateVmid : Nat
  node : String
  presets : List PveTemplatePresetEntry
deriving Repr, DecidableEq

def CURRENT_MANIFEST_SCHEMA_VERSION : Nat := 2

def DEFAULT_TEMPLATE_VMID : Nat := 9000

def CLONE_BASE_VMID : Nat := 9000

/-- `TemplatePresetPlan` (scripts/snapshot-pvelxc.py, lines 1173-1183). -/
structure TemplatePresetPlan where
  preset_id : String
  label : String
  cpu_display : String
  memory_display : String
  disk_display : String
  vcpus : Nat
  memory_mib : Nat
  disk_size_mib : Nat
deriving Repr, DecidableEq

/-- `TemplateRunResult` (scripts/snapshot-pvelxc.py, lines 1186-1193). -/
structure TemplateRunResult where
  preset : TemplatePresetPlan
  snapshot_id : String
  template_vmid : Nat
  captured_at : String
  node : String
deriving Repr, DecidableEq

/-- `preset_entry["versions"].sort(key=lambda entry: entry["version"])`:
stable ascending sort by the `version` field. -/
def sortVersions (l : List PveTemplateVersionEntry) : List PveTemplateVersionEntry :=
  stableSortBy (fun a b => decide (a.version ≤ b.version)) l

/-- The version-number allocation of `_add_version_to_preset` and
`_update_manifest_with_template`: 1 on an empty list, otherwise
`max(entry["version"] for entry in versions) + 1` (Python `max` over a
nonempty list of naturals equals `foldl Nat.max 0`). -/
def nextVersionOf (versions : List PveTemplateVersionEntry) : Nat :=
  if versions.isEmpty then 1
  else (versions.map (·.version)).foldl Nat.max 0 + 1

/-- `_add_version_to_preset` (scripts/snapshot-pvelxc.py, lines
1337-1355); `_update_manifest_with_template` inlines the identical
append-and-sort block (lines 1392-1403). -/
def _add_version_to_preset (e : PveTemplatePresetEntry) (template_vmid : Nat)
    (snapshot_id captured_at : String) : PveTemplatePresetEntry :=
  { e with versions :=
      sortVersions (e.versions ++
        [⟨nextVersionOf e.versions, snapshot_id, template_vmid, captured_at⟩]) }

/-- The metadata refresh `_update_manifest_with_template` applies to an
existing preset entry. -/
def refreshPresetMeta (preset : TemplatePresetPlan) (e : PveTemplatePresetEntry) :
    PveTemplatePresetEntry :=
  { e with label := preset.label, cpu := preset.cpu_display,
           memory := preset.memory_display, disk := preset.disk_display }

/-- The fresh preset entry `_update_manifest_with_template` appends when
no entry matches the preset id. -/
def freshPresetEntry (preset : TemplatePresetPlan) : PveTemplatePresetEntry :=
  ⟨preset.preset_id, preset.label, preset.cpu_display, preset.memory_display,
    preset.disk_display, []⟩

/-- The preset-entry lookup-or-append of `_update_manifest_with_template`:
the first entry whose `presetId` matches is refreshed and receives the new
version; when none matches a fresh entry is appended at the end. -/
def upsertPresets (preset : TemplatePresetPlan) (template_vmid : Nat)
    (snapshot_id captured_at : String) :
    List PveTemplatePresetEntry → List PveTemplatePresetEntry
  | [] => [_add_version_to_preset (freshPresetEntry preset) template_vmid snapshot_id captured_at]
  | e :: es =>
      if e.presetId == preset.preset_id then
        _add_version_to_preset (refreshPresetMeta preset e) template_vmid snapshot_id captured_at
          :: es
      else
        e :: upsertPresets preset template_vmid snapshot_id captured_at es

/-- `_update_manifest_with_template` (scripts/snapshot-pvelxc.py, lines
1358-1405). -/
def _update_manifest_with_template (manifest : PveTemplateManifestEntry)
    (preset : TemplatePresetPlan) (template_vmid : Nat)
    (snapshot_id captured_at node : String) : PveTemplateManifestEntry :=
  { manifest with
      node := node
      updatedAt := captured_at
      presets := upsertPresets preset template_vmid snapshot_id captured_at manifest.presets }

/-- N successive recordings of new templates for one fixed preset plan:
each element of `recs` is `(template_vmid, snapshot_id, captured_at,
node)` of one successful run, applied via
`_update_manifest_with_template` in order. -/
def recordPresetTemplates (manifest : PveTemplateManifestEntry)
    (p : TemplatePresetPlan) (recs : List (Nat × String × String × String)) :
    PveTemplateManifestEntry :=
  recs.foldl (fun m r => _update_manifest_with_template m p r.1 r.2.1 r.2.2.1 r.2.2.2) manifest

/-- `_ensure_manifest_snapshot_ids` (scripts/snapshot-pvelxc.py, lines
1296-1300): fill every empty `snapshotId` with a freshly generated id.
The uuid generator is passed in as the id supply `gen`, consumed in
document order. -/
def ensureVersionIds (gen : Nat → String) :
    Nat → List PveTemplateVersionEntry → List PveTemplateVersionEntry × Nat
  | n, [] => ([], n)
  | n, v :: vs =>
      if v.snapshotId == "" then
        let (rest, n1) := ensureVersionIds gen (n + 1) vs
        ({ v with snapshotId := gen n } :: rest, n1)
      else
        let (rest, n1) := ensureVersionIds gen n vs
        (v :: rest, n1)

def ensurePresetIds (gen : Nat → String) :
    Nat → List PveTemplatePresetEntry → List PveTemplatePresetEntry × Nat
  | n, [] => ([], n)
  | n, e :: es =>
      let (vs, n1) := ensureVersionIds gen n e.versions
      let (rest, n2) := ensurePresetIds gen n1 es
      ({ e with versions := vs } :: rest, n2)

def _ensure_manifest_snapshot_ids (gen : Nat → String)
    (m : PveTemplateManifestEntry) : PveTemplateManifestEntry :=
  { m with presets := (ensurePresetIds gen 0 m.presets).1 }

/-- `_load_manifest` (scripts/snapshot-pvelxc.py, lines 1303-1319).  The
filesystem and JSON parser are abstracted into the `file` argument:
`none` means `PVE_SNAPSHOT_MANIFEST_PATH.exists()` is false; `some
(.error e)` means reading/parsing the existing file raised with message
`e`; `some (.ok m)` is a successfully parsed manifest.  `now` stands for
`_iso_timestamp()` and `gen` for the uuid-based snapshot-id generator. -/
def _load_manifest (now : String) (gen : Nat → String)
    (file : Option (Except String PveTemplateManifestEntry)) :
    Except String PveTemplateManifestEntry :=
  match file with
  | none =>
      .ok ⟨CURRENT_MANIFEST_SCHEMA_VERSION, now, DEFAULT_TEMPLATE_VMID, "", []⟩
  | some (.error e) =>
      .error ("Failed to read PVE template manifest at PVE_SNAPSHOT_MANIFEST_PATH: " ++ e)
  | some (.ok raw) => .ok (_ensure_manifest_snapshot_ids gen raw)

/-- C10: loading the manifest when the file does not exist returns a
fresh manifest — schemaVersion 2 (the current schema version), empty
presets, the default base template VMID 9000 and an empty node — without
raising; and `_load_manifest` raises exactly when an existing manifest
file fails to read or parse. -/
theorem _load_manifest_missing_file (now : String) (gen : Nat → String)
    (file : Option (Except String PveTemplateManifestEntry)) :
    (file = none →
      _load_manifest now gen file =
        .ok ⟨CURRENT_MANIFEST_SCHEMA_VERSION, now, DEFAULT_TEMPLATE_VMID, "", []⟩) ∧
    (CURRENT_MANIFEST_SCHEMA_VERSION = 2 ∧ DEFAULT_TEMPLATE_VMID = 9000) ∧
    (∀ e, _load_manifest now gen file = .error e → ∃ msg, file = some (.error msg)) := by
  refine ⟨?_, ⟨rfl, rfl⟩, ?_⟩
  · rintro rfl
    rfl
  · intro e he
    match file with
    | none => exact absurd he (by simp [_load_manifest])
    | some (.error msg) => exact ⟨msg, rfl⟩
    | some (.ok raw) => exact absurd he (by simp [_load_manifest])

/-- Witness for C10: the missing-file case at concrete arguments. -/
theorem _load_manifest_missing_file_witness :
    ((none : Option (Except String PveTemplateManifestEntry)) = none →
      _load_manifest "2024-11-03T12:34:56Z" (fun _ => "snapshot_ab12cd34") none =
        .ok ⟨CURRENT_MANIFEST_SCHEMA_VERSION, "2024-11-03T12:34:56Z",
          DEFAULT_TEMPLATE_VMID, "", []⟩) ∧
    (CURRENT_MANIFEST_SCHEMA_VERSION = 2 ∧ DEFAULT_TEMPLATE_VMID = 9000) ∧
    (∀ e, _load_manifest "2024-11-03T12:34:56Z" (fun _ => "snapshot_ab12cd34") none = .error e →
      ∃ msg, (none : Option (Except String PveTemplateManifestEntry)) = some (.error msg)) :=
  _load_manifest_missing_file "2024-11-03T12:34:56Z" (fun _ => "snapshot_ab12cd34") none

/-- Inserting an element that is greater-or-equal (under `le`) than every
element of a list puts it at the end. -/
theorem insertSorted_of_all_le {α : Type} (le : α → α → Bool) (a : α) (l : List α)
    (h : ∀ b ∈ l, le b a = true) : insertSorted le a l = l ++ [a] := by
  induction l with
  | nil => rfl
  | cons b bs ih =>
      simp only [insertSorted]
      rw [if_pos (h b (by simp)), ih (fun c hc => h c (by simp [hc]))]
      rfl

/-- The stable sort leaves a list that is already pairwise `le`-sorted
unchanged (proved with the generalized accumulator of the fold). -/
theorem stableSortBy_foldl_sorted {α : Type} (le : α → α → Bool) :
    ∀ (l acc : List α),
      List.Pairwise (fun a b => le a b = true) (acc ++ l) →
      (l.foldl (fun acc x => insertSorted le x acc) acc) = acc ++ l := by
  intro l
  induction l with
  | nil => intro acc _; simp
  | cons x xs ih =>
      intro acc hp
      have hacc : ∀ b ∈ acc, le b x = true := by
        intro b hb
        exact ((List.pairwise_append.mp hp).2.2) b hb x (by simp)
      have hins : insertSorted le x acc = acc ++ [x] := insertSorted_of_all_le le x acc hacc
      have hp2 : List.Pairwise (fun a b => le a b = true) ((acc ++ [x]) ++ xs) := by
        rw [List.append_assoc]
        simpa using hp
      calc (x :: xs).foldl (fun acc x => insertSorted le x acc) acc
          = xs.foldl (fun acc x => insertSorted le x acc) (acc ++ [x]) := by
            rw [List.foldl_cons, hins]
        _ = (acc ++ [x]) ++ xs := ih (acc ++ [x]) hp2
        _ = acc ++ x :: xs := by simp

/-- Sorting an already sorted list is the identity. -/
theorem stableSortBy_of_pairwise {α : Type} (le : α → α → Bool) (l : List α)
    (h : List.Pairwise (fun a b => le a b = true) l) : stableSortBy le l = l := by
  have := stableSortBy_foldl_sorted le l [] (by simpa using h)
  simpa [stableSortBy] using this

/-- Folding `Nat.max` over `1..k` starting from 0 gives `k`. -/
theorem foldl_max_range' (k : Nat) : (List.range' 1 k).foldl Nat.max 0 = k := by
  induction k with
  | zero => rfl
  | succ k ih =>
      rw [List.range'_concat, List.foldl_append, ih]
      simp [Nat.max_def]
      omega

/-- The version allocated next after versions `1..k` is `k + 1`. -/
theorem nextVersionOf_range (l : List PveTemplateVersionEntry) (k : Nat)
    (h : l.map (·.version) = List.range' 1 k) : nextVersionOf l = k + 1 := by
  cases k with
  | zero =>
      have h0 : l.map (·.version) = [] := by simpa using h
      have hl : l = [] := by
        cases l with
        | nil => rfl
        | cons a as => simp at h0
      subst hl
      rfl
  | succ k =>
      have hne : l ≠ [] := by
        intro habs
        rw [habs] at h
        have hlen := congrArg List.length h
        simp at hlen
      simp only [nextVersionOf]
      rw [if_neg (by simpa [List.isEmpty_iff] using hne), h, foldl_max_range']

/-- One version append of `_add_version_to_preset` on an entry holding
versions `1..k` yields versions `1..(k+1)` (the sort is a no-op on the
already sorted list). -/
theorem _add_version_to_preset_range (e : PveTemplatePresetEntry) (k : Nat)
    (template_vmid : Nat) (snapshot_id captured_at : String)
    (h : e.versions.map (·.version) = List.range' 1 k) :
    (_add_version_to_preset e template_vmid snapshot_id captured_at).versions.map (·.version)
      = List.range' 1 (k + 1) ∧
    (_add_version_to_preset e template_vmid snapshot_id captured_at).presetId = e.presetId := by
  have hnext : nextVersionOf e.versions = k + 1 := nextVersionOf_range e.versions k h
  have hpair : List.Pairwise
      (fun a b : PveTemplateVersionEntry => decide (a.version ≤ b.version) = true)
      (e.versions ++ [⟨nextVersionOf e.versions, snapshot_id, template_vmid, captured_at⟩]) := by
    rw [List.pairwise_append]
    refine ⟨?_, by simp, ?_⟩
    · rw [← List.pairwise_map (f := fun v : PveTemplateVersionEntry => v.version)
        (R := fun a b : Nat => decide (a ≤ b) = true)]
      rw [h]
      have : List.Pairwise (· ≤ ·) (List.range' 1 k) := by
        have hlt : List.Pairwise (· < ·) (List.range' 1 k) := List.pairwise_lt_range' 1 k
        exact hlt.imp (fun hab => le_of_lt hab)
      exact this.imp (fun hab => by simpa using hab)
    · intro a ha b hb
      have hav : a.version ∈ List.range' 1 k := by
        rw [← h]
        exact List.mem_map.mpr ⟨a, ha, rfl⟩
      have hak : a.version < 1 + k := (List.mem_range'_1.mp hav).2
      have hbv : b.version = k + 1 := by
        rcases List.mem_singleton.mp hb with rfl
        simpa using hnext
      simp only [decide_eq_true_eq, hbv]
      omega
  simp only [_add_version_to_preset, sortVersions]
  rw [stableSortBy_of_pairwise _ _ hpair]
  constructor
  · rw [List.map_append, h, hnext]
    have : List.range' 1 (k + 1) = List.range' 1 k ++ [1 + 1 * k] := List.range'_concat 1 k
    rw [this]
    simp only [List.map_cons, List.map_nil]
    congr 1
    simp
    omega
  · trivial

/-- When no entry matches the preset id, `_update_manifest_with_template`
appends a fresh entry (with the first version) at the end. -/
theorem upsertPresets_no_match (p : TemplatePresetPlan) (template_vmid : Nat)
    (snapshot_id captured_at : String) (l : List PveTemplatePresetEntry)
    (h : ∀ x ∈ l, (x.presetId == p.preset_id) = false) :
    upsertPresets p template_vmid snapshot_id captured_at l =
      l ++ [_add_version_to_preset (freshPresetEntry p) template_vmid snapshot_id captured_at] := by
  induction l with
  | nil => rfl
  | cons e es ih =>
      simp only [upsertPresets]
      rw [if_neg (by simp [h e (by simp)]), ih (fun x hx => h x (by simp [hx]))]
      rfl

/-- When the first matching entry sits after a non-matching block,
`_update_manifest_with_template` updates it in place. -/
theorem upsertPresets_found (p : TemplatePresetPlan) (template_vmid : Nat)
    (snapshot_id captured_at : String) (pre post : List PveTemplatePresetEntry)
    (e : PveTemplatePresetEntry)
    (hpre : ∀ x ∈ pre, (x.presetId == p.preset_id) = false)
    (he : e.presetId = p.preset_id) :
    upsertPresets p template_vmid snapshot_id captured_at (pre ++ e :: post) =
      pre ++ _add_version_to_preset (refreshPresetMeta p e) template_vmid snapshot_id captured_at
        :: post := by
  induction pre with
  | nil =>
      simp only [List.nil_append, upsertPresets]
      rw [if_pos (by simp [he])]
  | cons x xs ih =>
      simp only [List.cons_append, upsertPresets]
      rw [if_neg (by simp [hpre x (by simp)])]
      rw [List.append_eq, ih (fun y hy => hpre y (by simp [hy]))]

/-- Folding further recordings for preset `p` over a manifest whose last
entry is the (unique) entry for `p` keeps that entry in place and extends
its contiguous version list. -/
theorem recordPresetTemplates_invariant (p : TemplatePresetPlan) :
    ∀ (recs : List (Nat × String × String × String)) (m : PveTemplateManifestEntry)
      (pre : List PveTemplatePresetEntry) (e : PveTemplatePresetEntry) (k : Nat),
      m.presets = pre ++ [e] →
      (∀ x ∈ pre, (x.presetId == p.preset_id) = false) →
      e.presetId = p.preset_id →
      e.versions.map (·.version) = List.range' 1 k →
      ∃ e2 : PveTemplatePresetEntry,
        (recordPresetTemplates m p recs).presets = pre ++ [e2] ∧
        e2.presetId = p.preset_id ∧
        e2.versions.map (·.version) = List.range' 1 (k + recs.length) := by
  intro recs
  induction recs with
  | nil =>
      intro m pre e k hm hpre he hvers
      exact ⟨e, by simpa [recordPresetTemplates] using hm, he, by simpa using hvers⟩
  | cons r rs ih =>
      intro m pre e k hm hpre he hvers
      have hmeta : (refreshPresetMeta p e).versions.map (·.version) = List.range' 1 k := hvers
      have hstep := _add_version_to_preset_range (refreshPresetMeta p e) k r.1 r.2.1 r.2.2.1 hmeta
      have hm1 : (_update_manifest_with_template m p r.1 r.2.1 r.2.2.1 r.2.2.2).presets =
          pre ++ _add_version_to_preset (refreshPresetMeta p e) r.1 r.2.1 r.2.2.1 :: [] := by
        simp only [_update_manifest_with_template]
        rw [hm]
        exact upsertPresets_found p r.1 r.2.1 r.2.2.1 pre [] e hpre he
      have hid : (_add_version_to_preset (refreshPresetMeta p e) r.1 r.2.1 r.2.2.1).presetId
          = p.preset_id := by
        rw [hstep.2]
        exact he
      obtain ⟨e2, h1, h2, h3⟩ := ih (_update_manifest_with_template m p r.1 r.2.1 r.2.2.1 r.2.2.2)
        pre _ (k + 1) hm1 hpre hid hstep.1
      refine ⟨e2, ?_, h2, ?_⟩
      · simpa [recordPresetTemplates] using h1
      · rw [h3]
        congr 1
        simp [List.length_cons]
        omega

/-- C7: starting from a manifest with no entry for the preset, recording
N ≥ 1 new templates via `_update_manifest_with_template` produces exactly
one entry for that preset id; its versions list has length N and its
version numbers are exactly the contiguous ascending sequence `1..N`
(each recording allocated `max + 1`, or 1 on the empty list, and appended
to the same entry once it existed). -/
theorem recordPresetTemplates_contiguous_versions (m : PveTemplateManifestEntry)
    (p : TemplatePresetPlan) (recs : List (Nat × String × String × String))
    (hnone : ∀ x ∈ m.presets, (x.presetId == p.preset_id) = false)
    (hne : recs ≠ []) :
    ∃ e : PveTemplatePresetEntry,
      (recordPresetTemplates m p recs).presets.filter
          (fun x => x.presetId == p.preset_id) = [e] ∧
      e.versions.length = recs.length ∧
      e.versions.map (·.version) = List.range' 1 recs.length := by
  cases recs with
  | nil => exact absurd rfl hne
  | cons r rs =>
      have hfresh : (freshPresetEntry p).versions.map (·.version) = List.range' 1 0 := rfl
      have hstep := _add_version_to_preset_range (freshPresetEntry p) 0 r.1 r.2.1 r.2.2.1 hfresh
      have hm1 : (_update_manifest_with_template m p r.1 r.2.1 r.2.2.1 r.2.2.2).presets =
          m.presets ++ [_add_version_to_preset (freshPresetEntry p) r.1 r.2.1 r.2.2.1] := by
        simp only [_update_manifest_with_template]
        exact upsertPresets_no_match p r.1 r.2.1 r.2.2.1 m.presets hnone
      have hid : (_add_version_to_preset (freshPresetEntry p) r.1 r.2.1 r.2.2.1).presetId
          = p.preset_id := by
        rw [hstep.2]
        rfl
      obtain ⟨e2, h1, h2, h3⟩ := recordPresetTemplates_invariant p rs
        (_update_manifest_with_template m p r.1 r.2.1 r.2.2.1 r.2.2.2)
        m.presets _ 1 hm1 hnone hid hstep.1
      have hrec : (recordPresetTemplates m p (r :: rs)).presets = m.presets ++ [e2] := by
        simpa [recordPresetTemplates] using h1
      refine ⟨e2, ?_, ?_, ?_⟩
      · rw [hrec, List.filter_append]
        have hprefilter : m.presets.filter (fun x => x.presetId == p.preset_id) = [] := by
          rw [List.filter_eq_nil_iff]
          intro x hx
          simp [hnone x hx]
        rw [hprefilter]
        simp [List.filter, h2]
      · have hlen := congrArg List.length h3
        rw [List.length_map, List.length_range'] at hlen
        rw [hlen]
        simp only [List.length_cons]
        omega
      · rw [h3]
        congr 1
        simp only [List.length_cons]
        omega

/-! ## Orchestrator: `provision_and_snapshot`

The preset loop (scripts/snapshot-pvelxc.py, lines 4475-4547) decides,
per preset, the clone source and whether to run the task graph, carries
`last_template_vmid` / `last_template_disk_mib` across iterations,
collects `TemplateRunResult`s, and only after the whole loop succeeds
folds them into the manifest and writes it; on any exception it cleans up
the created containers (when configured) and re-raises without writing. -/

/-- Python truthiness of the `int | None` variable `last_template_vmid`
(`None` and `0` are falsy). -/
def pyTruthyVmid : Option Nat → Bool
  | none => false
  | some v => v != 0

/-- The source/run-tasks decision of one iteration of the preset loop. -/
structure PresetDecision where
  source_vmid : Nat
  run_tasks : Bool
deriving Repr, DecidableEq

/-- Lines 4480-4494: default to the base template with tasks run; chain
from the previous template with tasks skipped when one exists and the
disk requirement is non-decreasing. -/
def chainDecision (baseVmid : Nat) (last : Option Nat) (lastDisk : Nat)
    (plan : TemplatePresetPlan) : PresetDecision :=
  if pyTruthyVmid last && decide (plan.disk_size_mib ≥ lastDisk) then
    ⟨last.getD 0, false⟩
  else
    ⟨baseVmid, true⟩

/-- The loop over `(preset_plan, created template vmid)` pairs, threading
`last_template_vmid` and `last_template_disk_mib` exactly as lines
4475-4511 do. -/
def decisionsGo (baseVmid : Nat) :
    Option Nat → Nat → List (TemplatePresetPlan × Nat) → List PresetDecision
  | _, _, [] => []
  | last, lastDisk, (plan, newVmid) :: rest =>
      chainDecision baseVmid last lastDisk plan ::
        decisionsGo baseVmid (some newVmid) plan.disk_size_mib rest

/-- The per-preset decisions of a `provision_and_snapshot` run whose
iteration `i` created template `newVmids[i]`. -/
def presetDecisions (baseVmid : Nat) (plans : List TemplatePresetPlan)
    (newVmids : List Nat) : List PresetDecision :=
  decisionsGo baseVmid none 0 (plans.zip newVmids)

theorem zip_getElem? {α β : Type} :
    ∀ (l : List α) (l2 : List β) (i : Nat),
      (l.zip l2)[i]? =
        match l[i]?, l2[i]? with
        | some a, some b => some (a, b)
        | _, _ => none := by
  intro l
  induction l with
  | nil => intro l2 i; cases l2 <;> cases i <;> simp
  | cons a as ih =>
      intro l2 i
      cases l2 with
      | nil => cases i <;> simp
      | cons b bs =>
          cases i with
          | zero => simp
          | succ j => simpa using ih bs j

theorem decisionsGo_getElem?_zero (baseVmid : Nat) :
    ∀ (pl : List (TemplatePresetPlan × Nat)) (last : Option Nat) (lastDisk : Nat)
      (x : TemplatePresetPlan × Nat),
      pl[0]? = some x →
      (decisionsGo baseVmid last lastDisk pl)[0]? =
        some (chainDecision baseVmid last lastDisk x.1) := by
  intro pl last lastDisk x h
  cases pl with
  | nil => cases h
  | cons y ys =>
      simp only [List.getElem?_cons_zero, Option.some_inj] at h
      subst h
      obtain ⟨p, v⟩ := y
      simp [decisionsGo]

theorem decisionsGo_getElem?_succ (baseVmid : Nat) :
    ∀ (pl : List (TemplatePresetPlan × Nat)) (last : Option Nat) (lastDisk : Nat)
      (i : Nat) (x y : TemplatePresetPlan × Nat),
      pl[i]? = some x →
      pl[i + 1]? = some y →
      (decisionsGo baseVmid last lastDisk pl)[i + 1]? =
        some (chainDecision baseVmid (some x.2) x.1.disk_size_mib y.1) := by
  intro pl
  induction pl with
  | nil => intro last lastDisk i x y hx; cases hx
  | cons z zs ih =>
      intro last lastDisk i x y hx hy
      obtain ⟨zp, zv⟩ := z
      cases i with
      | zero =>
          simp only [List.getElem?_cons_zero, Option.some_inj] at hx
          subst hx
          simp only [List.getElem?_cons_succ] at hy
          simpa [decisionsGo] using decisionsGo_getElem?_zero baseVmid zs _ _ y hy
      | succ j =>
          simp only [List.getElem?_cons_succ] at hx hy
          simpa [decisionsGo] using ih _ _ j x y hx hy

/-- C5: in the preset loop, the first preset is always built from the
supplied base template with tasks run; every later preset is built from
the immediately preceding preset's just-created template with task
execution skipped if and only if its `disk_size_mib` is at least the
previous preset's `disk_size_mib`, and is otherwise built from the base
template with tasks run.  (The created template VMIDs are positive —
`find_next_vmid` allocates from `CLONE_BASE_VMID = 9000` — which is what
makes the Python truthiness test on `last_template_vmid` equivalent to
"a previous template exists".) -/
theorem provision_and_snapshot_chaining (baseVmid : Nat)
    (plans : List TemplatePresetPlan) (newVmids : List Nat)
    (hlen : newVmids.length = plans.length)
    (hpos : ∀ v ∈ newVmids, 0 < v) :
    (∀ p0, plans[0]? = some p0 →
      (presetDecisions baseVmid plans newVmids)[0]? = some ⟨baseVmid, true⟩) ∧
    (∀ (i : Nat) (pi pi1 : TemplatePresetPlan) (vi : Nat),
      plans[i]? = some pi →
      plans[i + 1]? = some pi1 →
      newVmids[i]? = some vi →
      (presetDecisions baseVmid plans newVmids)[i + 1]? =
        some (if pi1.disk_size_mib ≥ pi.disk_size_mib then
                ⟨vi, false⟩
              else
                ⟨baseVmid, true⟩)) := by
  constructor
  · intro p0 hp0
    have hlt : 0 < plans.length := by
      rcases List.getElem?_eq_some_iff.mp hp0 with ⟨h, _⟩
      exact h
    have hb0 : 0 < newVmids.length := by omega
    have hv0 : newVmids[0]? = some (newVmids.get ⟨0, hb0⟩) :=
      List.getElem?_eq_getElem hb0
    have hz : (plans.zip newVmids)[0]? = some (p0, newVmids.get ⟨0, hb0⟩) := by
      rw [zip_getElem?, hp0, hv0]
    have := decisionsGo_getElem?_zero baseVmid (plans.zip newVmids) none 0 _ hz
    simpa [presetDecisions, chainDecision, pyTruthyVmid] using this
  · intro i pi pi1 vi hpi hpi1 hvi
    have hlt1 : i + 1 < plans.length := by
      rcases List.getElem?_eq_some_iff.mp hpi1 with ⟨h, _⟩
      exact h
    have hb1 : i + 1 < newVmids.length := by omega
    have hvi1 : newVmids[i + 1]? = some (newVmids.get ⟨i + 1, hb1⟩) :=
      List.getElem?_eq_getElem hb1
    have hzi : (plans.zip newVmids)[i]? = some (pi, vi) := by
      rw [zip_getElem?, hpi, hvi]
    have hzi1 : (plans.zip newVmids)[i + 1]? =
        some (pi1, newVmids.get ⟨i + 1, hb1⟩) := by
      rw [zip_getElem?, hpi1, hvi1]
    have hdec := decisionsGo_getElem?_succ baseVmid (plans.zip newVmids) none 0 i _ _ hzi hzi1
    have hvpos : 0 < vi := by
      apply hpos
      rcases List.getElem?_eq_some_iff.mp hvi with ⟨h, heq⟩
      exact heq ▸ List.getElem_mem h
    have hvne : (vi != 0) = true := by
      simp only [bne_iff_ne, ne_eq]
      omega
    simp only [presetDecisions]
    rw [hdec]
    simp only [chainDecision, pyTruthyVmid, hvne, Bool.true_and, Option.getD_some]
    by_cases hcmp : pi1.disk_size_mib ≥ pi.disk_size_mib
    · rw [if_pos (by simpa using hcmp), if_pos hcmp]
    · rw [if_neg (by simpa using hcmp), if_neg hcmp]

/-- The two default preset plans (standard then boosted) with the spec
scenario resource shapes, used as the concrete witness input. -/
def examplePlanStd : TemplatePresetPlan :=
  ⟨"4vcpu_8gb_32gb", "Standard workspace", "4 vCPU", "8 GB RAM", "32 GB SSD", 4, 8192, 32768⟩

def examplePlanBoosted : TemplatePresetPlan :=
  ⟨"6vcpu_8gb_40gb", "Performance workspace", "6 vCPU", "8 GB RAM", "40 GB SSD", 6, 8192, 40960⟩

/-- Witness for C5: with base template 9000 and created templates 9001,
9002, the first preset uses the base with tasks run, and the boosted
preset (disk 40960 ≥ 32768) chains from template 9001 with tasks
skipped. -/
theorem provision_and_snapshot_chaining_witness :
    (∀ p0, [examplePlanStd, examplePlanBoosted][0]? = some p0 →
      (presetDecisions 9000 [examplePlanStd, examplePlanBoosted] [9001, 9002])[0]? =
        some ⟨9000, true⟩) ∧
    (∀ (i : Nat) (pi pi1 : TemplatePresetPlan) (vi : Nat),
      [examplePlanStd, examplePlanBoosted][i]? = some pi →
      [examplePlanStd, examplePlanBoosted][i + 1]? = some pi1 →
      ([9001, 9002] : List Nat)[i]? = some vi →
      (presetDecisions 9000 [examplePlanStd, examplePlanBoosted] [9001, 9002])[i + 1]? =
        some (if pi1.disk_size_mib ≥ pi.disk_size_mib then
                ⟨vi, false⟩
              else
                ⟨9000, true⟩)) :=
  provision_and_snapshot_chaining 9000 [examplePlanStd, examplePlanBoosted] [9001, 9002]
    (by decide) (by decide)

/-- Witness for C7: two recordings for the standard preset on a manifest
that only holds an unrelated preset yield one entry with versions 1, 2. -/
def exampleManifestOther : PveTemplateManifestEntry :=
  ⟨2, "2024-11-01T00:00:00Z", 9000, "pve-01",
    [⟨"6vcpu_8gb_40gb", "Performance workspace", "6 vCPU", "8 GB RAM", "40 GB SSD", []⟩]⟩

theorem recordPresetTemplates_contiguous_versions_witness :
    ∃ e : PveTemplatePresetEntry,
      (recordPresetTemplates exampleManifestOther examplePlanStd
          [(9001, "snapshot_ab12cd34", "2024-11-03T12:34:56Z", "pve-01"),
           (9002, "snapshot_ef56ab78", "2024-11-04T12:34:56Z", "pve-01")]).presets.filter
          (fun x => x.presetId == examplePlanStd.preset_id) = [e] ∧
      e.versions.length =
        [(9001, "snapshot_ab12cd34", "2024-11-03T12:34:56Z", "pve-01"),
         (9002, "snapshot_ef56ab78", "2024-11-04T12:34:56Z", "pve-01")].length ∧
      e.versions.map (·.version) =
        List.range' 1
          [(9001, "snapshot_ab12cd34", "2024-11-03T12:34:56Z", "pve-01"),
           (9002, "snapshot_ef56ab78", "2024-11-04T12:34:56Z", "pve-01")].length :=
  recordPresetTemplates_contiguous_versions exampleManifestOther examplePlanStd
    [(9001, "snapshot_ab12cd34", "2024-11-03T12:34:56Z", "pve-01"),
     (9002, "snapshot_ef56ab78", "2024-11-04T12:34:56Z", "pve-01")]
    (by decide) (by decide)

/-- The preset loop of `provision_and_snapshot` as the sequence of its
per-iteration outcomes: the loop body either returns a
`TemplateRunResult` (appended to `results`) or raises, aborting the loop
at the first failure with that exception. -/
def provisionResults : List (Except String TemplateRunResult) →
    Except String (List TemplateRunResult)
  | [] => .ok []
  | .error e :: _ => .error e
  | .ok r :: rest =>
      match provisionResults rest with
      | .ok rs => .ok (r :: rs)
      | .error e => .error e

/-- The post-loop manifest fold of `provision_and_snapshot` (lines
4538-4546). -/
def recordRunResults (m : PveTemplateManifestEntry) (results : List TemplateRunResult) :
    PveTemplateManifestEntry :=
  results.foldl (fun m r =>
    _update_manifest_with_template m r.preset r.template_vmid r.snapshot_id
      r.captured_at r.node) m

/-- The manifest-file effect of one `provision_and_snapshot` run (lines
4456-4547): the loaded manifest gets `baseTemplateVmid` assigned before
the loop; the file is written — with every collected result folded in —
only after the whole preset loop finished without an exception.  When any
iteration raises, the handler cleans up and re-raises, so `_write_manifest`
is never reached and the file keeps its pre-run contents (returned
together with `false`). -/
def provision_and_snapshot_persist (loaded : PveTemplateManifestEntry) (baseVmid : Nat)
    (outcomes : List (Except String TemplateRunResult)) :
    PveTemplateManifestEntry × Bool :=
  match provisionResults outcomes with
  | .error _ => (loaded, false)
  | .ok results =>
      (recordRunResults { loaded with baseTemplateVmid := baseVmid } results, true)

/-- A successful standard-preset run result used in concrete inputs. -/
def exampleRunResultStd : TemplateRunResult :=
  ⟨examplePlanStd, "snapshot_ab12cd34", 9001, "2024-11-03T12:34:56Z", "pve-01"⟩

/-- A pre-run manifest file with no presets. -/
def emptyManifest : PveTemplateManifestEntry := ⟨2, "2024-11-01T00:00:00Z", 9000, "", []⟩

/-- Counterexample to C6: in a run whose first preset succeeded and whose
second preset failed, the persisted manifest file is the unchanged
pre-run manifest — it holds no entry for the preset that completed
successfully earlier in the same run, contradicting the claim that such
entries are still persisted. -/
theorem provision_and_snapshot_partial_failure_counterexample :
    (provision_and_snapshot_persist emptyManifest 9000
        [.ok exampleRunResultStd, .error "Provisioning failed"]).1 = emptyManifest ∧
    (provision_and_snapshot_persist emptyManifest 9000
        [.ok exampleRunResultStd, .error "Provisioning failed"]).1.presets.filter
        (fun e => e.presetId == exampleRunResultStd.preset.preset_id) = [] := by
  exact ⟨rfl, rfl⟩

/-- C6 amended: when any preset of the run fails, `provision_and_snapshot`
re-raises before reaching `_write_manifest`, so the manifest file is not
written at all in that run: it keeps its pre-run contents, and the
entries of presets that completed successfully earlier in the same run
are lost rather than persisted (the file is neither rolled back nor
advanced — it is simply never written). -/
theorem provision_and_snapshot_failure_no_write (loaded : PveTemplateManifestEntry)
    (baseVmid : Nat) (outcomes : List (Except String TemplateRunResult)) (e : String)
    (h : provisionResults outcomes = .error e) :
    provision_and_snapshot_persist loaded baseVmid outcomes = (loaded, false) := by
  simp [provision_and_snapshot_persist, h]

/-- Witness for the amended C6: the two-preset run with a failing second
preset leaves the pre-run manifest untouched. -/
theorem provision_and_snapshot_failure_no_write_witness :
    provision_and_snapshot_persist emptyManifest 9000
        [.ok exampleRunResultStd, .error "Provisioning failed"] = (emptyManifest, false) :=
  provision_and_snapshot_failure_no_write emptyManifest 9000
    [.ok exampleRunResultStd, .error "Provisioning failed"] "Provisioning failed" rfl

/-- The container-lifecycle calls of the cleanup-on-failure loop (lines
4517-4530): for each vmid in `created_containers`, in list order, a
graceful shutdown followed by deletion. -/
inductive CleanupCall where
  | shutdown_lxc (vmid : Nat)
  | delete_lxc (vmid : Nat)
deriving Repr, DecidableEq

def cleanup_on_failure_calls (created_containers : List Nat) : List CleanupCall :=
  created_containers.flatMap (fun v => [.shutdown_lxc v, .delete_lxc v])

/-- The order in which the cleanup loop issues the `delete_lxc` calls. -/
def cleanupDeletionOrder (created_containers : List Nat) : List Nat :=
  (cleanup_on_failure_calls created_containers).filterMap
    (fun c => match c with | .delete_lxc v => some v | _ => none)

/-- Counterexample to C8: with containers created in the order 9001 then
9002, the cleanup loop deletes 9001 first and 9002 second — the order of
creation, not its reverse. -/
theorem cleanup_order_counterexample :
    cleanupDeletionOrder [9001, 9002] = [9001, 9002] ∧
    cleanupDeletionOrder [9001, 9002] ≠ ([9001, 9002] : List Nat).reverse := by
  exact ⟨rfl, by decide⟩

/-- C8 amended: when a preset fails and `cleanup_on_failure` is enabled,
the orchestrator destroys all workspaces created during the current run
in their order of creation (the loop iterates `created_containers`
forward), not in reverse. -/
theorem cleanup_deletes_in_creation_order (created_containers : List Nat) :
    cleanupDeletionOrder created_containers = created_containers := by
  induction created_containers with
  | nil => rfl
  | cons v vs ih =>
      simp only [cleanupDeletionOrder, cleanup_on_failure_calls, List.flatMap_cons,
        List.filterMap_append] at ih ⊢
      rw [ih]
      rfl
